import Mathlib

/-!
# DevCon: post routes and the education validator

A shallow embedding of `routes/api/posts.js` (the delete, like, unlike and
delete-comment routes) and of `validation/education.js`, together with the
properties of these routes that can be established from the code.

Identifiers (`ObjectId.toString()`, `req.user.id`, `req.params.*`) are strings.
JavaScript arrays are lists; the array methods the routes call (`filter`,
`map`, `indexOf`, `unshift`, `splice`) are embedded one by one.
-/

set_option autoImplicit false

namespace DevCon

/-! ## JavaScript array methods used by the routes -/

namespace JsArray

/-- The method `Array.prototype.unshift(x)`: the new element becomes element 0. -/
def unshift {α : Type} (xs : List α) (x : α) : List α := x :: xs

/-- Scan of `Array.prototype.indexOf` from position `i`: the position of the
first element strictly equal to `v`, or `-1` when the scan reaches the end. -/
def indexOfFrom : List String → String → Nat → Int
  | [], _, _ => -1
  | x :: xs, v, i => if x = v then (i : Int) else indexOfFrom xs v (i + 1)

/-- The method `Array.prototype.indexOf(v)`. -/
def indexOf (xs : List String) (v : String) : Int := indexOfFrom xs v 0

/-- The method `Array.prototype.splice(start, deleteCount)` with no inserted items, as the
array is left after the call. A negative `start` counts from the end
(`max (len + start) 0`), a `start` beyond the end is clamped to `len`, and the
delete count is clamped to what remains after the start. -/
def splice {α : Type} (xs : List α) (start deleteCount : Int) : List α :=
  let len : Int := (xs.length : Int)
  let actualStart : Int := if start < 0 then max (len + start) 0 else min start len
  let actualDeleteCount : Int := min (max deleteCount 0) (len - actualStart)
  xs.take actualStart.toNat ++ xs.drop (actualStart + actualDeleteCount).toNat

end JsArray

/-! ## Data model -/

/-- Modelled from the spec: the model file `models/Post` is not among the
sources; an entry of `likes` is a record `{user}`. -/
structure Like where
  user : String
deriving DecidableEq, Repr

/-- Modelled from the spec: the model file `models/Post` is not among the
sources; an entry of `comments` is a record `{id, text, name, avatar, user}`
(`id` is the `_id` the route compares). -/
structure Comment where
  id : String
  text : String
  name : String
  avatar : String
  user : String
deriving DecidableEq, Repr

/-- Modelled from the spec: the model file `models/Post` is not among the
sources; a post document has the fields `id, text, name, avatar, user, likes,
comments, date`. -/
structure Post where
  id : String
  text : String
  name : String
  avatar : String
  user : String
  likes : List Like
  comments : List Comment
  date : Nat
deriving DecidableEq, Repr

/-- The posts collection of the document store. -/
abbrev Store := List Post

/-- Modelled from the spec: the model file `models/Profile` is not among the
sources. A profile document has an id and the `user` the routes query it by
(`Profile.findOne` with `user`). The delete-comment route reads `comments` of
such a document: `none` is a document without that property (reading it gives
`undefined`), which is what the data model of the spec describes, where only
posts have comments. -/
structure Profile where
  id : String
  user : String
  comments : Option (List Comment)
deriving DecidableEq, Repr

/-- The two collections of the document store the routes use. -/
structure Db where
  posts : Store
  profiles : List Profile
deriving DecidableEq, Repr

/-- The lookup `Post.findById(id)`: the stored document with that id, `none` for `null`. -/
def findById (st : Store) (id : String) : Option Post :=
  st.find? (fun p => p.id = id)

/-- The call `post.save()` for a loaded document: the stored document with the same id
is replaced by `p`. -/
def save (st : Store) (p : Post) : Store :=
  st.map (fun q => if q.id = p.id then p else q)

/-- The call `post.remove()` when it resolves: the document with the id of `p`
leaves the collection. -/
def remove (st : Store) (p : Post) : Store :=
  st.filter (fun q => q.id ≠ p.id)

namespace Profile

/-- The lookup `Profile.findById(id)`: the stored profile with that id, `none`
for `null`. -/
def findById (profiles : List Profile) (id : String) : Option Profile :=
  profiles.find? (fun p => p.id = id)

/-- The call `save()` on a loaded profile document: the stored document with
the same id is replaced by `p`. -/
def save (profiles : List Profile) (p : Profile) : List Profile :=
  profiles.map (fun q => if q.id = p.id then p else q)

end Profile

/-! ## Responses -/

/-- JSON bodies the routes send. -/
inductive Body where
  | notAuthorized (msg : String)
  | success (b : Bool)
  | postNotFound (msg : String)
  | alreadyLiked (msg : String)
  | notLiked (msg : String)
  | commentNotFoun (msg : String)
  | post (p : Post)
  | profile (p : Profile)
deriving DecidableEq, Repr

/-- An HTTP response: `res.status(s).json(body)`; `res.json(body)` has status 200. -/
structure Response where
  status : Nat
  body : Body
deriving DecidableEq, Repr

/-! ## Routes of `routes/api/posts.js`

Each route takes the store, the authenticated caller `req.user.id` and the
route parameters, and returns the response (if one is sent) and the store
after the call. In the routes `DELETE /:id`, `POST /like/:id` and
`POST /unlike/:id` the promise of `Post.findById` has no `.catch`: when the
lookup resolves to `null` the callback throws on `post.user` / `post.likes`
and no response is sent. The preceding `Profile.findOne` only sequences the
callback; its result is unused.
-/

/-- The route `DELETE api/posts/:id`. The flag `removeResolves` is the outcome
of `post.remove()` in the persistence layer: when the promise resolves the
document is gone and the route answers `success`; when it rejects, the `.catch`
on it answers 404 `postNotFound` and the document stays. -/
def deletePost (st : Store) (removeResolves : Bool) (userId postId : String) :
    Option Response × Store :=
  match findById st postId with
  | none => (none, st)
  | some post =>
    if post.user ≠ userId then
      (some ⟨401, Body.notAuthorized "User not authorized"⟩, st)
    else if removeResolves then
      (some ⟨200, Body.success true⟩, remove st post)
    else
      (some ⟨404, Body.postNotFound "No post found "⟩, st)

/-- The route `POST api/posts/like/:id`. -/
def likePost (st : Store) (userId postId : String) : Option Response × Store :=
  match findById st postId with
  | none => (none, st)
  | some post =>
    if (post.likes.filter (fun like => like.user ≠ userId)).length > 0 then
      (some ⟨400, Body.alreadyLiked "User already liked this post"⟩, st)
    else
      let post1 : Post := { post with likes := JsArray.unshift post.likes ⟨userId⟩ }
      (some ⟨200, Body.post post1⟩, save st post1)

/-- The route `POST api/posts/unlike/:id`. -/
def unlikePost (st : Store) (userId postId : String) : Option Response × Store :=
  match findById st postId with
  | none => (none, st)
  | some post =>
    if (post.likes.filter (fun like => like.user = userId)).length > 0 then
      (some ⟨400, Body.notLiked "You have not yet liked this post"⟩, st)
    else
      let removeIndex : Int := JsArray.indexOf (post.likes.map (fun item => item.user)) userId
      let post1 : Post := { post with likes := JsArray.splice post.likes removeIndex 1 }
      (some ⟨200, Body.post post1⟩, save st post1)

/-- The route `DELETE api/posts/comment/:id/:comment_id`. The document bound
to `post` in the callback is what `Profile.findById(req.params.id)` resolves
to, a document of the profiles collection. When the lookup resolves to `null`
(or rejects), and when the document has no `comments` property, reading
`post.comments.filter` throws and the `.catch` answers 404 `postNotFound`.
Otherwise the callback runs on the comments of that profile document and
saves that document. The posts collection is never written. -/
def deleteComment (db : Db) (postId commentId : String) : Response × Db :=
  match Profile.findById db.profiles postId with
  | none => (⟨404, Body.postNotFound "No post found"⟩, db)
  | some post =>
    match post.comments with
    | none => (⟨404, Body.postNotFound "No post found"⟩, db)
    | some comments =>
      if (comments.filter (fun comment => comment.id = commentId)).length = 0 then
        (⟨404, Body.commentNotFoun "Comment does not exist"⟩, db)
      else
        let removeIndex : Int := JsArray.indexOf (comments.map (fun item => item.id)) commentId
        let post1 : Profile := { post with comments := some (JsArray.splice comments removeIndex 1) }
        (⟨200, Body.profile post1⟩, { db with profiles := Profile.save db.profiles post1 })

/-! ## `validation/education.js` -/

/-- A JavaScript value as the parsed request body can hold it in a field:
absent (`undefined`), `null`, a boolean, a number, a string, an array or an
object. The validator never looks at the value of a number or boolean nor
inside the elements of an array or object. -/
inductive JsValue where
  | undefined
  | null
  | bool (b : Bool)
  | num (n : Int)
  | str (s : String)
  | arr (items : List JsValue)
  | obj (props : List (String × JsValue))

/-- The record handed to `validateEducationInput`. -/
structure EducationInput where
  school : JsValue
  degree : JsValue
  «from» : JsValue
  fieldOfStudy : JsValue

/-- The characters `String.prototype.trim` strips: the ECMAScript `WhiteSpace`
and `LineTerminator` code points. -/
def isJsWhiteSpace (c : Char) : Bool :=
  let n := c.toNat
  n = 0x09 || n = 0x0A || n = 0x0B || n = 0x0C || n = 0x0D || n = 0x20 || n = 0xA0 ||
  n = 0x1680 || (0x2000 ≤ n && n ≤ 0x200A) || n = 0x2028 || n = 0x2029 || n = 0x202F ||
  n = 0x205F || n = 0x3000 || n = 0xFEFF

/-- The method `String.prototype.trim`: white space removed at both ends. -/
def jsTrim (s : String) : String :=
  ⟨((s.data.dropWhile isJsWhiteSpace).reverse.dropWhile isJsWhiteSpace).reverse⟩

/-- Modelled from the spec: the helper `validation/is-empty` is not among the
sources. A value is empty when it is absent, null, a string that is empty once
white space is trimmed, or an object without properties (`isValid` is true iff
`errors` is empty); an array is an object whose properties are its elements.
A number or a boolean is none of these and is not empty. -/
def isEmpty : JsValue → Bool
  | JsValue.undefined => true
  | JsValue.null => true
  | JsValue.str s => (jsTrim s).length = 0
  | JsValue.obj props => props.length = 0
  | JsValue.arr items => items.length = 0
  | JsValue.bool _ => false
  | JsValue.num _ => false

/-- A JavaScript object with string properties, in insertion order. -/
abbrev JsObject := List (String × String)

/-- The object `o` as a JavaScript value. -/
def JsObject.toValue (o : JsObject) : JsValue :=
  JsValue.obj (o.map (fun e => (e.1, JsValue.str e.2)))

/-- Property assignment `o.k = v`: an existing property keeps its place and gets
the new value, a new property is added last. -/
def setProp (o : JsObject) (k v : String) : JsObject :=
  if o.any (fun e => e.1 = k) then o.map (fun e => if e.1 = k then (k, v) else e)
  else o ++ [(k, v)]

/-- An exception thrown by the validator library. -/
inductive JsError where
  | typeError
deriving DecidableEq, Repr

namespace Validator

/-- The check `Validator.isEmpty(str)` of the validator library with its default
options: the library first asserts that its argument is a string and throws a
`TypeError` when it is not; a string is empty when its length is 0. -/
def isEmpty (str : JsValue) : Except JsError Bool :=
  match str with
  | JsValue.str s => Except.ok (s.length = 0)
  | _ => Except.error JsError.typeError

end Validator

/-- The reassignment `data.f = !isEmpty(data.f) ? data.f : (empty string)`. -/
def normalizeField (v : JsValue) : JsValue :=
  if !isEmpty v then v else JsValue.str ""

/-- What `validateEducationInput` returns. -/
structure ValidationResult where
  errors : JsObject
  isValid : Bool
deriving DecidableEq, Repr

/-- The function `validateEducationInput(data)` of `validation/education.js`:
the result it returns, or the exception that leaves it. -/
def validateEducationInput (data : EducationInput) : Except JsError ValidationResult := do
  let errors : JsObject := []
  let school := normalizeField data.school
  let degree := normalizeField data.degree
  let «from» := normalizeField data.«from»
  let fieldOfStudy := normalizeField data.fieldOfStudy
  let schoolEmpty ← Validator.isEmpty school
  let errors := if schoolEmpty then
    setProp errors "school" "School field is required" else errors
  let degreeEmpty ← Validator.isEmpty degree
  let errors := if degreeEmpty then
    setProp errors "degree" "Degree field is required" else errors
  let fromEmpty ← Validator.isEmpty «from»
  let errors := if fromEmpty then
    setProp errors "from" "From date field is required" else errors
  let fieldOfStudyEmpty ← Validator.isEmpty fieldOfStudy
  let errors := if fieldOfStudyEmpty then
    setProp errors "fieldOfStudy" "Field of study field is required" else errors
  return { errors := errors, isValid := isEmpty errors.toValue }

/-- The condition of the specification on a field: absent, null, empty or made
of white space only. -/
def blankSpec : JsValue → Bool
  | JsValue.undefined => true
  | JsValue.null => true
  | JsValue.str s => s.data.all isJsWhiteSpace
  | _ => false

/-- The fields the amended statement on the validator ranges over: absent, null
or a string. -/
def absentNullOrString : JsValue → Bool
  | JsValue.undefined => true
  | JsValue.null => true
  | JsValue.str _ => true
  | _ => false

/-! ## Sample documents -/

/-- A post of user `U1` with no likes and no comments. -/
def samplePost : Post :=
  { id := "p1", text := "hello", name := "Ann", avatar := "ann.png", user := "U1",
    likes := [], comments := [], date := 0 }

/-- The sample post, liked by `U1`. -/
def likedByU1 : Post := { samplePost with likes := [⟨"U1"⟩] }

/-- The sample post, liked by `U2`. -/
def likedByU2 : Post := { samplePost with likes := [⟨"U2"⟩] }

/-- The sample post, liked by `U3` and then by `U1` (most recent first). -/
def likedByU1U3 : Post := { samplePost with likes := [⟨"U1"⟩, ⟨"U3"⟩] }

/-- The sample post with one comment by `U3`. -/
def commentedPost : Post :=
  { samplePost with comments := [⟨"c1", "nice", "Cy", "cy.png", "U3"⟩] }

/-- An education record with one field of each kind the validator treats as
missing or present: a name, `null`, white space only, absent. -/
def partialEducation : EducationInput :=
  { school := JsValue.str "MIT", degree := JsValue.null, «from» := JsValue.str "  \t",
    fieldOfStudy := JsValue.undefined }

/-- An education record whose `from` is the number 2010. -/
def numericFromEducation : EducationInput :=
  { school := JsValue.str "MIT", degree := JsValue.str "BSc", «from» := JsValue.num 2010,
    fieldOfStudy := JsValue.str "Physics" }

/-- A store whose posts collection holds the commented sample post and whose
profiles collection holds the profile `f1` of `U1`, a document without
comments. -/
def commentedDb : Db :=
  { posts := [commentedPost], profiles := [⟨"f1", "U1", none⟩] }

/-! ## Lemmas on the array methods -/

namespace JsArray

theorem indexOfFrom_absent (xs : List String) (v : String) (i : Nat)
    (h : ∀ x ∈ xs, x ≠ v) : indexOfFrom xs v i = -1 := by
  induction xs generalizing i with
  | nil => rfl
  | cons x xs ih =>
    have hx : x ≠ v := h x (List.mem_cons_self _ _)
    simp only [indexOfFrom, if_neg hx]
    exact ih (i + 1) (fun y hy => h y (List.mem_cons_of_mem _ hy))

theorem indexOfFrom_first (pre post : List String) (v : String) (i : Nat)
    (h : ∀ x ∈ pre, x ≠ v) : indexOfFrom (pre ++ v :: post) v i = ((i + pre.length : Nat) : Int) := by
  induction pre generalizing i with
  | nil => simp [indexOfFrom]
  | cons x pre ih =>
    have hx : x ≠ v := h x (List.mem_cons_self _ _)
    have step := ih (i + 1) (fun y hy => h y (List.mem_cons_of_mem _ hy))
    show indexOfFrom (x :: (pre ++ v :: post)) v i = _
    simp only [indexOfFrom, if_neg hx, List.length_cons, step]
    congr 1
    omega

theorem splice_last {α : Type} (xs : List α) (h : xs ≠ []) :
    splice xs (-1) 1 = xs.dropLast := by
  have hlen : 0 < xs.length := List.length_pos.mpr h
  have h1 : max ((xs.length : Int) + -1) 0 = ((xs.length - 1 : Nat) : Int) := by omega
  simp only [splice, show ((-1 : Int) < 0) from by decide, if_true, h1]
  have h2 : (((xs.length - 1 : Nat) : Int)
      + min (max (1 : Int) 0) ((xs.length : Int) - ((xs.length - 1 : Nat) : Int))).toNat
      = xs.length := by omega
  rw [h2, Int.toNat_ofNat, List.drop_length, List.append_nil, List.dropLast_eq_take]

theorem splice_one_at {α : Type} (pre post : List α) (x : α) :
    splice (pre ++ x :: post) (pre.length : Int) 1 = pre ++ post := by
  have hlen : (pre ++ x :: post).length = pre.length + post.length + 1 := by
    simp; omega
  have h0 : ¬ ((pre.length : Int) < 0) := by omega
  simp only [splice, if_neg h0, hlen]
  have h1 : min (pre.length : Int) ((pre.length + post.length + 1 : Nat) : Int)
      = (pre.length : Int) := by omega
  rw [h1]
  have h2 : ((pre.length : Int) + min (max (1 : Int) 0)
      (((pre.length + post.length + 1 : Nat) : Int) - (pre.length : Int))).toNat
      = pre.length + 1 := by omega
  rw [h2, Int.toNat_ofNat, List.take_left]
  have h3 : List.drop (pre.length + 1) (pre ++ x :: post) = post := by
    rw [← List.drop_drop, List.drop_left]
    rfl
  rw [h3]

end JsArray

/-! ## Lemmas on the store -/

theorem findById_id (st : Store) (id : String) (p : Post)
    (h : findById st id = some p) : p.id = id := by
  have := List.find?_some h
  simpa using this

theorem findById_save (st : Store) (id : String) (p q : Post)
    (h : findById st id = some p) (hq : q.id = id) :
    findById (save st q) id = some q := by
  induction st with
  | nil => simp [findById] at h
  | cons a st ih =>
    by_cases ha : a.id = id
    · simp [findById, save, List.find?, ha, hq]
    · have h1 : findById st id = some p := by
        simpa [findById, List.find?, ha] using h
      have h2 := ih h1
      have ha2 : ¬ a.id = q.id := by rw [hq]; exact ha
      simpa [findById, save, List.find?, ha, ha2] using h2

theorem findById_remove (st : Store) (p : Post) :
    findById (remove st p) p.id = none := by
  simp [findById, remove, List.find?_eq_none]

/-! ## The delete route -/

/-- C6 as stated fails for the owner when the removal is rejected: on a store
holding the sample post of `U1`, the delete by `U1` with `post.remove()`
rejecting answers 404 `postNotFound` and the post is still stored. -/
theorem deletePost_owner_removal_rejected :
    samplePost.user = "U1" ∧
    findById [samplePost] "p1" = some samplePost ∧
    deletePost [samplePost] false "U1" "p1"
      = (some ⟨404, Body.postNotFound "No post found "⟩, [samplePost]) ∧
    findById (deletePost [samplePost] false "U1" "p1").2 "p1" = some samplePost := by
  decide

/-- C6, amended: for a stored post `p` and a caller `u` other than `p.user`,
the delete route answers 401 `notAuthorized` and the store after the call is
the store before it, whatever the persistence layer would do with a removal.
When `p.user` is `u` and `post.remove()` resolves, the route answers `success`
and the post is no longer found, every stored document with another id being
kept; when `p.user` is `u` and `post.remove()` rejects, the route answers 404
`postNotFound` and the store is the store before the call. -/
theorem deletePost_owner_check (st : Store) (removeResolves : Bool) (u id : String)
    (p : Post) (h : findById st id = some p) :
    (p.user ≠ u →
      deletePost st removeResolves u id
        = (some ⟨401, Body.notAuthorized "User not authorized"⟩, st)) ∧
    (p.user = u → removeResolves = true →
      (deletePost st removeResolves u id).1 = some ⟨200, Body.success true⟩ ∧
      findById (deletePost st removeResolves u id).2 id = none ∧
      (deletePost st removeResolves u id).2 = st.filter (fun q => q.id ≠ id)) ∧
    (p.user = u → removeResolves = false →
      deletePost st removeResolves u id
        = (some ⟨404, Body.postNotFound "No post found "⟩, st)) := by
  have hid := findById_id st id p h
  refine ⟨?_, ?_, ?_⟩
  · intro hne
    simp [deletePost, h, hne]
  · intro heq hres
    have hrem := findById_remove st p
    rw [hid] at hrem
    simp only [deletePost, h, heq, hres, ne_eq, not_true_eq_false, if_false, if_true, true_and]
    refine ⟨hrem, ?_⟩
    simp [remove, hid]
  · intro heq hres
    simp [deletePost, h, heq, hres]

/-- C6, amended, on a store holding the sample post of `U1`: `U2` is refused and
the store is untouched; `U1` removes the post when the removal resolves. -/
theorem deletePost_owner_check_witness :
    findById [samplePost] "p1" = some samplePost ∧
    deletePost [samplePost] true "U2" "p1"
      = (some ⟨401, Body.notAuthorized "User not authorized"⟩, [samplePost]) ∧
    deletePost [samplePost] true "U1" "p1" = (some ⟨200, Body.success true⟩, []) ∧
    findById (deletePost [samplePost] true "U1" "p1").2 "p1" = none :=
  ⟨by decide,
   (deletePost_owner_check [samplePost] true "U2" "p1" samplePost (by decide)).1 (by decide),
   by decide,
   ((deletePost_owner_check [samplePost] true "U1" "p1" samplePost (by decide)).2.1
      (by decide) rfl).2.1⟩

/-! ## The like and unlike routes -/

theorem filter_length_pos_iff {α : Type} (q : α → Bool) (xs : List α) :
    (xs.filter q).length > 0 ↔ ∃ x ∈ xs, q x = true := by
  rw [gt_iff_lt, List.length_pos_iff_exists_mem]
  simp [List.mem_filter]

/-- The guard of the like route holds exactly when some like belongs to a user
other than the caller. -/
theorem likePost_conflict_iff (st : Store) (u id : String) (p : Post)
    (h : findById st id = some p) :
    likePost st u id = (some ⟨400, Body.alreadyLiked "User already liked this post"⟩, st)
      ↔ ∃ l ∈ p.likes, l.user ≠ u := by
  have hg := filter_length_pos_iff (fun like : Like => decide (like.user ≠ u)) p.likes
  simp only [decide_eq_true_eq] at hg
  by_cases hc : (p.likes.filter (fun like => like.user ≠ u)).length > 0
  · simp only [likePost, h, hc, if_true, true_iff]
    exact hg.mp hc
  · have hn : ¬ ∃ l ∈ p.likes, l.user ≠ u := fun hex => hc (hg.mpr hex)
    simp [likePost, h, hc, hn]

/-- The guard of the unlike route holds exactly when some like belongs to the
caller. -/
theorem unlikePost_conflict_iff (st : Store) (u id : String) (p : Post)
    (h : findById st id = some p) :
    unlikePost st u id = (some ⟨400, Body.notLiked "You have not yet liked this post"⟩, st)
      ↔ ∃ l ∈ p.likes, l.user = u := by
  have hg := filter_length_pos_iff (fun like : Like => decide (like.user = u)) p.likes
  simp only [decide_eq_true_eq] at hg
  by_cases hc : (p.likes.filter (fun like => like.user = u)).length > 0
  · simp only [unlikePost, h, hc, if_true, true_iff]
    exact hg.mp hc
  · have hn : ¬ ∃ l ∈ p.likes, l.user = u := fun hex => hc (hg.mpr hex)
    simp [unlikePost, h, hc, hn]

/-- A like that passes the guard stores the post with the caller in front of
the former likes. -/
theorem likePost_of_all_own (st : Store) (u id : String) (p : Post)
    (h : findById st id = some p) (hall : ∀ l ∈ p.likes, l.user = u) :
    likePost st u id
      = (some ⟨200, Body.post { p with likes := ⟨u⟩ :: p.likes }⟩,
         save st { p with likes := ⟨u⟩ :: p.likes }) := by
  have hc : ¬ (p.likes.filter (fun like => like.user ≠ u)).length > 0 := by
    intro hpos
    obtain ⟨l, hl, hlu⟩ :=
      (filter_length_pos_iff (fun like : Like => decide (like.user ≠ u)) p.likes).mp hpos
    exact (by simpa using hlu : l.user ≠ u) (hall l hl)
  simp only [likePost, h, hc, if_false, JsArray.unshift]

/-- Whenever a like passes the guard, the same like issued again passes it too
and stores a second entry of the caller. -/
theorem likePost_again_of_all_own (st : Store) (u id : String) (p : Post)
    (h : findById st id = some p) (hall : ∀ l ∈ p.likes, l.user = u) :
    (likePost (likePost st u id).2 u id).1
      = some ⟨200, Body.post { p with likes := ⟨u⟩ :: ⟨u⟩ :: p.likes }⟩ := by
  have hid := findById_id st id p h
  rw [likePost_of_all_own st u id p h hall]
  have hfound := findById_save st id p { p with likes := ⟨u⟩ :: p.likes } h hid
  have hall2 : ∀ l ∈ ({ p with likes := ⟨u⟩ :: p.likes } : Post).likes, l.user = u := by
    intro l hl
    rcases List.mem_cons.mp hl with rfl | hmem
    · rfl
    · exact hall l hmem
  rw [likePost_of_all_own _ u id _ hfound hall2]

/-- Whenever a like passes the guard, the unlike of the same caller that follows
is refused with `notLiked` and saves nothing. -/
theorem unlikePost_after_like_of_all_own (st : Store) (u id : String) (p : Post)
    (h : findById st id = some p) (hall : ∀ l ∈ p.likes, l.user = u) :
    unlikePost (likePost st u id).2 u id
      = (some ⟨400, Body.notLiked "You have not yet liked this post"⟩,
         (likePost st u id).2) := by
  have hid := findById_id st id p h
  rw [likePost_of_all_own st u id p h hall]
  have hfound := findById_save st id p { p with likes := ⟨u⟩ :: p.likes } h hid
  exact (unlikePost_conflict_iff _ u id _ hfound).mpr ⟨⟨u⟩, List.mem_cons_self _ _, rfl⟩

/-- C1: evaluation of the like route. With `likes = [{user: U1}]` the caller
`U2`, who is not in `likes`, gets 400 `alreadyLiked`; with `likes = [{user: U2}]`
the caller `U2`, who is in `likes`, gets no conflict but status 200. -/
theorem likePost_conflict_mismatch :
    (∀ l ∈ likedByU1.likes, l.user ≠ "U2") ∧
    likePost [likedByU1] "U2" "p1"
      = (some ⟨400, Body.alreadyLiked "User already liked this post"⟩, [likedByU1]) ∧
    (∃ l ∈ likedByU2.likes, l.user = "U2") ∧
    ((likePost [likedByU2] "U2" "p1").1.map Response.status) = some 200 := by
  decide

/-- C2: evaluation of the unlike route. With `likes = [{user: U2}]` the caller
`U2`, who is in `likes`, gets 400 `notLiked` and nothing is saved; with
`likes = [{user: U1}]` the caller `U2`, who is not in `likes`, gets status 200. -/
theorem unlikePost_conflict_mismatch :
    (∃ l ∈ likedByU2.likes, l.user = "U2") ∧
    unlikePost [likedByU2] "U2" "p1"
      = (some ⟨400, Body.notLiked "You have not yet liked this post"⟩, [likedByU2]) ∧
    (∀ l ∈ likedByU1.likes, l.user ≠ "U2") ∧
    ((unlikePost [likedByU1] "U2" "p1").1.map Response.status) = some 200 := by
  decide

/-- C3: evaluation of two likes in a row. On a post with `likes = []` the first
like by `U2` answers 200 with `likes = [{user: U2}]`; the second like by `U2`
answers 200 again and stores `likes = [{user: U2}, {user: U2}]`. -/
theorem likePost_twice_duplicates :
    likePost [samplePost] "U2" "p1" = (some ⟨200, Body.post likedByU2⟩, [likedByU2]) ∧
    likePost (likePost [samplePost] "U2" "p1").2 "U2" "p1"
      = (some ⟨200, Body.post { samplePost with likes := [⟨"U2"⟩, ⟨"U2"⟩] }⟩,
         [{ samplePost with likes := [⟨"U2"⟩, ⟨"U2"⟩] }]) := by
  decide

/-- C4: evaluation of a like followed by an unlike. On a post with `likes = []`
the like by `U2` answers 200 and stores `likes = [{user: U2}]`; the unlike by
`U2` on the resulting store answers 400 `notLiked` and the stored likes stay
`[{user: U2}]`, not the `[]` from before the like. -/
theorem like_then_unlike_conflict :
    likePost [samplePost] "U2" "p1" = (some ⟨200, Body.post likedByU2⟩, [likedByU2]) ∧
    unlikePost (likePost [samplePost] "U2" "p1").2 "U2" "p1"
      = (some ⟨400, Body.notLiked "You have not yet liked this post"⟩, [likedByU2]) ∧
    (findById (unlikePost (likePost [samplePost] "U2" "p1").2 "U2" "p1").2 "p1").map Post.likes
      = some [⟨"U2"⟩] ∧
    samplePost.likes = [] := by
  decide

/-- C5: whenever the like route answers 200 for a stored post `p`, the body is
the saved post `q`, now stored under the same id, whose likes are `{user: u}`
followed by the likes of `p` in order (one more entry), every other field of
`p` being kept. -/
theorem likePost_success_prepends (st st1 : Store) (u id : String) (p : Post) (r : Response)
    (h : findById st id = some p) (hrun : likePost st u id = (some r, st1))
    (hok : r.status = 200) :
    ∃ q : Post, r.body = Body.post q ∧ st1 = save st q ∧ findById st1 id = some q ∧
      q.likes = ⟨u⟩ :: p.likes ∧ q.likes.length = p.likes.length + 1 ∧
      q.text = p.text ∧ q.name = p.name ∧ q.avatar = p.avatar ∧ q.user = p.user ∧
      q.comments = p.comments ∧ q.id = p.id ∧ q.date = p.date := by
  have hid := findById_id st id p h
  by_cases hc : (p.likes.filter (fun like => like.user ≠ u)).length > 0
  · simp only [likePost, h, hc, if_true, Prod.mk.injEq, Option.some.injEq] at hrun
    rw [← hrun.1] at hok
    exact absurd hok (by decide)
  · simp only [likePost, h, hc, if_false, Prod.mk.injEq, Option.some.injEq] at hrun
    refine ⟨{ p with likes := JsArray.unshift p.likes ⟨u⟩ }, ?_, hrun.2.symm, ?_, rfl, ?_,
      rfl, rfl, rfl, rfl, rfl, rfl, rfl⟩
    · rw [← hrun.1]
    · rw [← hrun.2]
      exact findById_save st id p _ h hid
    · simp [JsArray.unshift]

/-- C5, on a store holding the sample post with no likes, liked by `U2`. -/
theorem likePost_success_prepends_witness :
    findById [samplePost] "p1" = some samplePost ∧
    likePost [samplePost] "U2" "p1" = (some ⟨200, Body.post likedByU2⟩, [likedByU2]) ∧
    ∃ q : Post, (⟨200, Body.post likedByU2⟩ : Response).body = Body.post q ∧
      [likedByU2] = save [samplePost] q ∧ findById [likedByU2] "p1" = some q ∧
      q.likes = ⟨"U2"⟩ :: samplePost.likes ∧ q.likes.length = samplePost.likes.length + 1 ∧
      q.text = samplePost.text ∧ q.name = samplePost.name ∧ q.avatar = samplePost.avatar ∧
      q.user = samplePost.user ∧ q.comments = samplePost.comments ∧ q.id = samplePost.id ∧
      q.date = samplePost.date :=
  ⟨by decide, by decide,
   likePost_success_prepends [samplePost] [likedByU2] "U2" "p1" samplePost
     ⟨200, Body.post likedByU2⟩ (by decide) (by decide) (by decide)⟩

/-- C10: for a stored post whose likes are non-empty and hold no entry of the
caller `u`, the unlike route computes `removeIndex = -1` and answers 200 (not a
failure) with the post whose likes are the former likes without their last
entry; that post is what is saved and found afterwards. -/
theorem unlikePost_absent_drops_last (st : Store) (u id : String) (p : Post)
    (h : findById st id = some p) (hne : p.likes ≠ [])
    (habs : ∀ l ∈ p.likes, l.user ≠ u) :
    JsArray.indexOf (p.likes.map (fun item => item.user)) u = -1 ∧
    unlikePost st u id
      = (some ⟨200, Body.post { p with likes := p.likes.dropLast }⟩,
         save st { p with likes := p.likes.dropLast }) ∧
    findById (unlikePost st u id).2 id = some { p with likes := p.likes.dropLast } := by
  have hid := findById_id st id p h
  have hidx : JsArray.indexOf (p.likes.map (fun item => item.user)) u = -1 := by
    apply JsArray.indexOfFrom_absent
    intro x hx
    obtain ⟨l, hl, rfl⟩ := List.mem_map.mp hx
    exact habs l hl
  have hc : ¬ (p.likes.filter (fun like => like.user = u)).length > 0 := by
    intro hpos
    obtain ⟨l, hl, hlu⟩ :=
      (filter_length_pos_iff (fun like : Like => decide (like.user = u)) p.likes).mp hpos
    exact habs l hl (by simpa using hlu)
  have hrun : unlikePost st u id
      = (some ⟨200, Body.post { p with likes := p.likes.dropLast }⟩,
         save st { p with likes := p.likes.dropLast }) := by
    simp only [unlikePost, h, hc, if_false, hidx, JsArray.splice_last p.likes hne]
  refine ⟨hidx, hrun, ?_⟩
  rw [hrun]
  exact findById_save st id p _ h hid

/-- C10, on a store holding the sample post liked by `U1` and `U3`: the unlike
by `U2` drops the like of `U3`. -/
theorem unlikePost_absent_drops_last_witness :
    findById [likedByU1U3] "p1" = some likedByU1U3 ∧ likedByU1U3.likes ≠ [] ∧
    (∀ l ∈ likedByU1U3.likes, l.user ≠ "U2") ∧
    JsArray.indexOf (likedByU1U3.likes.map (fun item => item.user)) "U2" = -1 ∧
    unlikePost [likedByU1U3] "U2" "p1"
      = (some ⟨200, Body.post { likedByU1U3 with likes := likedByU1U3.likes.dropLast }⟩,
         save [likedByU1U3] { likedByU1U3 with likes := likedByU1U3.likes.dropLast }) ∧
    findById (unlikePost [likedByU1U3] "U2" "p1").2 "p1"
      = some { likedByU1U3 with likes := likedByU1U3.likes.dropLast } ∧
    likedByU1U3.likes.dropLast = [⟨"U1"⟩] :=
  ⟨by decide, by decide, by decide,
   (unlikePost_absent_drops_last [likedByU1U3] "U2" "p1" likedByU1U3
      (by decide) (by decide) (by decide)).1,
   (unlikePost_absent_drops_last [likedByU1U3] "U2" "p1" likedByU1U3
      (by decide) (by decide) (by decide)).2.1,
   (unlikePost_absent_drops_last [likedByU1U3] "U2" "p1" likedByU1U3
      (by decide) (by decide) (by decide)).2.2,
   by decide⟩

/-! ## The delete-comment route -/

theorem exists_first_split {α : Type} (q : α → Prop) (xs : List α)
    (h : ∃ x ∈ xs, q x) :
    ∃ pre x post, xs = pre ++ x :: post ∧ q x ∧ ∀ y ∈ pre, ¬ q y := by
  induction xs with
  | nil => obtain ⟨x, hx, _⟩ := h; cases hx
  | cons a xs ih =>
    by_cases ha : q a
    · exact ⟨[], a, xs, rfl, ha, fun y hy => by cases hy⟩
    · obtain ⟨x, hx, hqx⟩ := h
      have hx2 : x ∈ xs := by
        rcases List.mem_cons.mp hx with rfl | hmem
        · exact absurd hqx ha
        · exact hmem
      obtain ⟨pre, y, post, hsplit, hqy, hpre⟩ := ih ⟨x, hx2, hqx⟩
      refine ⟨a :: pre, y, post, by rw [hsplit]; rfl, hqy, ?_⟩
      intro z hz
      rcases List.mem_cons.mp hz with rfl | hmem
      · exact ha
      · exact hpre z hmem

/-- The delete-comment route never writes the posts collection. -/
theorem deleteComment_posts_unchanged (db : Db) (postId commentId : String) :
    (deleteComment db postId commentId).2.posts = db.posts := by
  unfold deleteComment
  split
  · rfl
  · split
    · rfl
    · split <;> rfl

/-- When no profile document carries the id in the route, the delete-comment
route answers 404 `No post found` and the store stays as it is, whatever the
posts collection holds under that id. -/
theorem deleteComment_of_no_profile (db : Db) (postId commentId : String)
    (h : Profile.findById db.profiles postId = none) :
    deleteComment db postId commentId = (⟨404, Body.postNotFound "No post found"⟩, db) := by
  simp only [deleteComment, h]

/-- The callback of the delete-comment route, on a profile document that has
comments none of which carries the id: 404 `Comment does not exist`, nothing
saved. -/
theorem deleteComment_callback_unknown_id (db : Db) (postId c : String) (f : Profile)
    (cs : List Comment) (hf : Profile.findById db.profiles postId = some f)
    (hcs : f.comments = some cs) (h : ∀ x ∈ cs, x.id ≠ c) :
    deleteComment db postId c
      = (⟨404, Body.commentNotFoun "Comment does not exist"⟩, db) := by
  have hc : (cs.filter (fun comment => comment.id = c)).length = 0 := by
    rw [List.length_eq_zero, List.filter_eq_nil_iff]
    intro x hx
    simpa using h x hx
  simp only [deleteComment, hf, hcs, hc, if_true]

/-- The callback of the delete-comment route, on a profile document that has a
comment with the id: the first such comment is removed from the comments of
that profile document, which is what is saved. -/
theorem deleteComment_callback_removes_first (db : Db) (postId c : String) (f : Profile)
    (cs : List Comment) (hf : Profile.findById db.profiles postId = some f)
    (hcs : f.comments = some cs) (h : ∃ x ∈ cs, x.id = c) :
    ∃ pre x post, cs = pre ++ x :: post ∧ x.id = c ∧ (∀ y ∈ pre, y.id ≠ c) ∧
      deleteComment db postId c
        = (⟨200, Body.profile { f with comments := some (pre ++ post) }⟩,
           { db with profiles :=
              Profile.save db.profiles { f with comments := some (pre ++ post) } }) := by
  obtain ⟨pre, x, post, hsplit, hx, hpre⟩ :=
    exists_first_split (fun y : Comment => y.id = c) cs h
  refine ⟨pre, x, post, hsplit, hx, hpre, ?_⟩
  have hc : ¬ (cs.filter (fun comment => comment.id = c)).length = 0 := by
    rw [List.length_eq_zero, List.filter_eq_nil_iff]
    intro hall
    have := hall x (by rw [hsplit]; simp)
    simp [hx] at this
  have hidx : JsArray.indexOf (cs.map (fun item => item.id)) c
      = ((pre.length : Nat) : Int) := by
    have hfirst := JsArray.indexOfFrom_first (pre.map (fun item => item.id))
      (post.map (fun item => item.id)) c 0
      (by
        intro z hz
        obtain ⟨y, hy, rfl⟩ := List.mem_map.mp hz
        exact hpre y hy)
    rw [JsArray.indexOf, hsplit, List.map_append, List.map_cons, hx, hfirst]
    simp
  have hspl : JsArray.splice cs ((pre.length : Nat) : Int) 1 = pre ++ post := by
    rw [hsplit]
    exact JsArray.splice_one_at pre post x
  simp only [deleteComment, hf, hcs, hc, if_false, hidx, hspl]

/-- C7: evaluation of the delete-comment route on a stored post. The posts
collection holds post `p1` whose only comment has id `c1`; asked to delete the
comment `c2` of `p1`, which `p1` does not have, the route answers 404 with
`No post found`, not with `Comment does not exist`; the store is unchanged. -/
theorem deleteComment_unknown_id_answers_no_post :
    findById commentedDb.posts "p1" = some commentedPost ∧
    (∀ x ∈ commentedPost.comments, x.id ≠ "c2") ∧
    deleteComment commentedDb "p1" "c2"
      = (⟨404, Body.postNotFound "No post found"⟩, commentedDb) ∧
    (deleteComment commentedDb "p1" "c2").1
      ≠ ⟨404, Body.commentNotFoun "Comment does not exist"⟩ := by
  decide

/-- C8: evaluation of the delete-comment route on a stored post. The posts
collection holds post `p1` whose only comment has id `c1`; asked to delete the
comment `c1` of `p1`, the route answers 404 with `No post found` and the stored
post still has its comment `c1`. -/
theorem deleteComment_known_id_keeps_comment :
    findById commentedDb.posts "p1" = some commentedPost ∧
    (∃ x ∈ commentedPost.comments, x.id = "c1") ∧
    deleteComment commentedDb "p1" "c1"
      = (⟨404, Body.postNotFound "No post found"⟩, commentedDb) ∧
    (findById (deleteComment commentedDb "p1" "c1").2.posts "p1").map
        (fun q => q.comments.map (fun item => item.id))
      = some ["c1"] := by
  decide

/-! ## The education validator -/

theorem jsTrim_length_eq_zero_iff (s : String) :
    (jsTrim s).length = 0 ↔ ∀ c ∈ s.data, isJsWhiteSpace c = true := by
  have hlen : (jsTrim s).length
      = ((s.data.dropWhile isJsWhiteSpace).reverse.dropWhile isJsWhiteSpace).reverse.length := rfl
  rw [hlen, List.length_eq_zero, List.reverse_eq_nil_iff, List.dropWhile_eq_nil_iff]
  constructor
  · intro hall
    have hdrop : s.data.dropWhile isJsWhiteSpace = [] := by
      rw [List.dropWhile_eq_nil_iff]
      intro c hc
      by_contra hws
      have hmem : c ∈ s.data.dropWhile isJsWhiteSpace := by
        rcases List.mem_append.mp
          (by rw [List.takeWhile_append_dropWhile]; exact hc :
            c ∈ s.data.takeWhile isJsWhiteSpace ++ s.data.dropWhile isJsWhiteSpace) with ht | hd
        · exact absurd (List.mem_takeWhile_imp ht) hws
        · exact hd
      exact hws (hall c (List.mem_reverse.mpr hmem))
    exact List.dropWhile_eq_nil_iff.mp hdrop
  · intro hall c hc
    exact hall c ((List.dropWhile_sublist _).subset (List.mem_reverse.mp hc))

theorem isEmpty_str_eq_blankSpec (s : String) :
    isEmpty (JsValue.str s) = blankSpec (JsValue.str s) := by
  simp only [isEmpty, blankSpec]
  rw [Bool.eq_iff_iff, decide_eq_true_iff, List.all_eq_true]
  exact jsTrim_length_eq_zero_iff s

theorem validator_isEmpty_normalizeField (v : JsValue) (hv : absentNullOrString v = true) :
    Validator.isEmpty (normalizeField v) = Except.ok (blankSpec v) := by
  cases v with
  | undefined => rfl
  | null => rfl
  | bool b => simp [absentNullOrString] at hv
  | num n => simp [absentNullOrString] at hv
  | arr items => simp [absentNullOrString] at hv
  | obj props => simp [absentNullOrString] at hv
  | str s =>
    rw [← isEmpty_str_eq_blankSpec]
    by_cases he : isEmpty (JsValue.str s) = true
    · simp [normalizeField, he, Validator.isEmpty]
    · have hne : s.length ≠ 0 := by
        intro h0
        apply he
        have hnil : s.data = [] := List.length_eq_zero.mp h0
        simp only [isEmpty, decide_eq_true_eq]
        rw [jsTrim_length_eq_zero_iff, hnil]
        intro c hc
        cases hc
      simp only [Bool.not_eq_true] at he
      simp [normalizeField, he, Validator.isEmpty, hne]

/-- A number or a boolean in a field is kept by the reassignment and makes the
check of the validator library throw. -/
theorem validator_isEmpty_normalizeField_throws (v : JsValue)
    (hv : (∃ n, v = JsValue.num n) ∨ (∃ b, v = JsValue.bool b)) :
    Validator.isEmpty (normalizeField v) = Except.error JsError.typeError := by
  rcases hv with ⟨n, rfl⟩ | ⟨b, rfl⟩ <;> rfl

/-- C9 as stated fails on a record with a field that is not a string: with
`from: 2010`, which is neither absent, null, empty nor white space, the
validator library throws a `TypeError` and `validateEducationInput` returns no
`errors` and no `isValid`. -/
theorem validateEducationInput_numeric_throws :
    blankSpec numericFromEducation.«from» = false ∧
    validateEducationInput numericFromEducation = Except.error JsError.typeError ∧
    ¬ ∃ r, validateEducationInput numericFromEducation = Except.ok r := by
  refine ⟨rfl, rfl, ?_⟩
  rintro ⟨r, hr⟩
  have hthrow : validateEducationInput numericFromEducation
      = Except.error JsError.typeError := rfl
  rw [hthrow] at hr
  cases hr

/-- C9, amended: for every input record whose fields `school`, `degree`,
`from`, `fieldOfStudy` are each absent, null or a string,
`validateEducationInput` returns, and the `errors` object it returns has a
property `f`, for each `f` of the four, exactly when field `f` of the input is
absent, null, empty or white space only; it has no other property and none
twice, so it has as many properties as there are such fields; and `isValid` is
true exactly when `errors` is empty, which is exactly when none of the four
fields is such a field. -/
theorem validateEducationInput_spec (data : EducationInput)
    (hschool : absentNullOrString data.school = true)
    (hdegree : absentNullOrString data.degree = true)
    (hfrom : absentNullOrString data.«from» = true)
    (hfield : absentNullOrString data.fieldOfStudy = true) :
    ∃ r : ValidationResult, validateEducationInput data = Except.ok r ∧
    ((∃ m, ("school", m) ∈ r.errors) ↔ blankSpec data.school = true) ∧
    ((∃ m, ("degree", m) ∈ r.errors) ↔ blankSpec data.degree = true) ∧
    ((∃ m, ("from", m) ∈ r.errors) ↔ blankSpec data.«from» = true) ∧
    ((∃ m, ("fieldOfStudy", m) ∈ r.errors) ↔ blankSpec data.fieldOfStudy = true) ∧
    (∀ e ∈ r.errors, e.1 ∈ ["school", "degree", "from", "fieldOfStudy"]) ∧
    (r.errors.map Prod.fst).Nodup ∧
    r.errors.length
      = ([data.school, data.degree, data.«from», data.fieldOfStudy].filter blankSpec).length ∧
    (r.isValid = true ↔ r.errors = []) ∧
    (r.isValid = true
      ↔ blankSpec data.school = false ∧ blankSpec data.degree = false ∧
        blankSpec data.«from» = false ∧ blankSpec data.fieldOfStudy = false) := by
  simp only [validateEducationInput, validator_isEmpty_normalizeField _ hschool,
    validator_isEmpty_normalizeField _ hdegree, validator_isEmpty_normalizeField _ hfrom,
    validator_isEmpty_normalizeField _ hfield, List.filter, bind, Except.bind, pure,
    Except.pure, Except.ok.injEq, exists_eq_left']
  generalize blankSpec data.school = b1
  generalize blankSpec data.degree = b2
  generalize blankSpec data.«from» = b3
  generalize blankSpec data.fieldOfStudy = b4
  cases b1 <;> cases b2 <;> cases b3 <;> cases b4 <;>
    simp [setProp, isEmpty, JsObject.toValue]

/-- C9, amended, on a record with a school name, a null degree, a `from` of
white space and no field of study: three properties, `isValid` false. -/
theorem validateEducationInput_spec_witness :
    absentNullOrString partialEducation.school = true ∧
    absentNullOrString partialEducation.degree = true ∧
    absentNullOrString partialEducation.«from» = true ∧
    absentNullOrString partialEducation.fieldOfStudy = true ∧
    validateEducationInput partialEducation
      = Except.ok ⟨[("degree", "Degree field is required"),
          ("from", "From date field is required"),
          ("fieldOfStudy", "Field of study field is required")], false⟩ ∧
    ∃ r : ValidationResult, validateEducationInput partialEducation = Except.ok r ∧
    ((∃ m, ("school", m) ∈ r.errors) ↔ blankSpec partialEducation.school = true) ∧
    ((∃ m, ("degree", m) ∈ r.errors) ↔ blankSpec partialEducation.degree = true) ∧
    ((∃ m, ("from", m) ∈ r.errors) ↔ blankSpec partialEducation.«from» = true) ∧
    ((∃ m, ("fieldOfStudy", m) ∈ r.errors)
      ↔ blankSpec partialEducation.fieldOfStudy = true) ∧
    (∀ e ∈ r.errors, e.1 ∈ ["school", "degree", "from", "fieldOfStudy"]) ∧
    (r.errors.map Prod.fst).Nodup ∧
    r.errors.length
      = ([partialEducation.school, partialEducation.degree, partialEducation.«from»,
          partialEducation.fieldOfStudy].filter blankSpec).length ∧
    (r.isValid = true ↔ r.errors = []) ∧
    (r.isValid = true
      ↔ blankSpec partialEducation.school = false ∧ blankSpec partialEducation.degree = false ∧
        blankSpec partialEducation.«from» = false ∧
        blankSpec partialEducation.fieldOfStudy = false) :=
  ⟨rfl, rfl, rfl, rfl, rfl, validateEducationInput_spec partialEducation rfl rfl rfl rfl⟩

end DevCon
